import Mathlib

/-!
# Verification of the knowledge-base bulk import/export pipeline

Shallow embedding of `BulkImportService` (CSV/JSON bulk import, validation,
and export of knowledge-base entries) from the repository's
`server/contentMaster/bulkImportService.ts`, together with proofs of the
specification's claims about it.

JavaScript strings are modelled as lists of characters (`Str`), so that the
string operations the source uses (`split`, `trim`, `replace`, concatenation,
truthiness) become structurally recursive Lean functions that are easy both to
evaluate on concrete inputs and to reason about inductively.

The platform's `JSON.parse` is modelled by `jsonParse`, a small executable
parser for the JSON subset the pipeline actually exchanges (null, booleans,
integer numbers, strings without escape sequences, arrays, objects).  All
service definitions that call `JSON.parse` are parameterised over the parse
function `jp`, so the theorems quantify over the parser where possible and the
model parser is used to instantiate concrete witnesses.
-/

/-- A JavaScript string, modelled as its list of characters. -/
abbrev Str := List Char

/-- Embed a Lean string literal into the `Str` model. -/
def str (s : String) : Str := s.toList

/-- The characters JavaScript `String.prototype.trim` removes. -/
def isWsChar (c : Char) : Bool := c = ' ' || c = '\t' || c = '\n' || c = '\r'

/-- JavaScript `s.trim()`: drop whitespace from both ends. -/
def trimStr (s : Str) : Str :=
  ((s.dropWhile isWsChar).reverse.dropWhile isWsChar).reverse

/-- JavaScript `s.split(sep)` for a single-character separator
(the source only ever splits on a newline or a comma). -/
def splitOnChar (sep : Char) : Str → List Str
  | [] => [[]]
  | c :: cs =>
    let r := splitOnChar sep cs
    if c = sep then [] :: r
    else
      match r with
      | g :: gs => (c :: g) :: gs
      | [] => [[c]]

/-- JavaScript `xs.join(sep)` on a list of strings. -/
def strIntercalate (sep : Str) (xs : List Str) : Str :=
  (List.intersperse sep xs).flatten

/-- JavaScript `s.replace(/"/g, a)` specialised to replacing every
double-quote character by a given replacement string. -/
def replaceQuote (repl : Str) (s : Str) : Str :=
  s.flatMap (fun c => if c = '"' then repl else [c])

/-- JavaScript truthiness for a possibly-undefined string:
`undefined` and the empty string are falsy. -/
def strTruthy : Option Str → Bool
  | none => false
  | some s => !s.isEmpty

/-- JavaScript `a || b` for a possibly-undefined string `a`. -/
def strOr (a : Option Str) (b : Str) : Str :=
  match a with
  | some s => if s.isEmpty then b else s
  | none => b

/-- A JSON value, as produced by the platform's `JSON.parse`. -/
inductive Js where
  | jnull : Js
  | jbool : Bool → Js
  | jnum : Int → Js
  | jstr : Str → Js
  | jarr : List Js → Js
  | jobj : List (Str × Js) → Js

/-- Read the digits of a nonnegative integer literal. -/
def digitsToNat (acc : Nat) : Str → Nat
  | [] => acc
  | c :: cs => digitsToNat (acc * 10 + (c.toNat - '0'.toNat)) cs

/-- Parse a JSON string body (after the opening quote) up to the closing
quote.  Escape sequences are outside the modelled subset and are rejected. -/
def parseJsStringRest : Str → Except Str (Str × Str)
  | [] => .error (str "json: unterminated string")
  | '"' :: rest => .ok ([], rest)
  | '\\' :: _ => .error (str "json: escape sequences unsupported in model")
  | c :: rest => (parseJsStringRest rest).map (fun p => (c :: p.1, p.2))

mutual

/-- Parse one JSON value from the front of the input; fuel-bounded recursion. -/
def parseJsVal : Nat → Str → Except Str (Js × Str)
  | 0, _ => .error (str "json: out of fuel")
  | fuel + 1, s =>
    match s.dropWhile isWsChar with
    | 'n' :: 'u' :: 'l' :: 'l' :: rest => .ok (.jnull, rest)
    | 't' :: 'r' :: 'u' :: 'e' :: rest => .ok (.jbool true, rest)
    | 'f' :: 'a' :: 'l' :: 's' :: 'e' :: rest => .ok (.jbool false, rest)
    | '"' :: rest => (parseJsStringRest rest).map (fun p => (.jstr p.1, p.2))
    | '[' :: rest =>
      (match rest.dropWhile isWsChar with
       | ']' :: rest2 => .ok (.jarr [], rest2)
       | _ => (parseJsElems fuel rest []).map (fun p => (.jarr p.1, p.2)))
    | '{' :: rest =>
      (match rest.dropWhile isWsChar with
       | '}' :: rest2 => .ok (.jobj [], rest2)
       | _ => (parseJsFields fuel rest []).map (fun p => (.jobj p.1, p.2)))
    | '-' :: rest =>
      let ds := rest.takeWhile Char.isDigit
      if ds.isEmpty then .error (str "json: bad number")
      else .ok (.jnum (-(digitsToNat 0 ds : Int)), rest.dropWhile Char.isDigit)
    | c :: rest =>
      if c.isDigit then
        let ds := (c :: rest).takeWhile Char.isDigit
        .ok (.jnum (digitsToNat 0 ds : Int), (c :: rest).dropWhile Char.isDigit)
      else .error (str "json: unexpected character")
    | [] => .error (str "json: unexpected end of input")

/-- Parse the elements of a (non-empty) JSON array, after the bracket. -/
def parseJsElems : Nat → Str → List Js → Except Str (List Js × Str)
  | 0, _, _ => .error (str "json: out of fuel")
  | fuel + 1, s, acc =>
    match parseJsVal fuel s with
    | .error e => .error e
    | .ok (v, rest) =>
      match rest.dropWhile isWsChar with
      | ',' :: rest2 => parseJsElems fuel rest2 (acc ++ [v])
      | ']' :: rest2 => .ok (acc ++ [v], rest2)
      | _ => .error (str "json: expected comma or bracket")

/-- Parse the fields of a (non-empty) JSON object, after the brace. -/
def parseJsFields : Nat → Str → List (Str × Js) → Except Str (List (Str × Js) × Str)
  | 0, _, _ => .error (str "json: out of fuel")
  | fuel + 1, s, acc =>
    match s.dropWhile isWsChar with
    | '"' :: rest =>
      (match parseJsStringRest rest with
       | .error e => .error e
       | .ok (key, rest2) =>
         match rest2.dropWhile isWsChar with
         | ':' :: rest3 =>
           (match parseJsVal fuel rest3 with
            | .error e => .error e
            | .ok (v, rest4) =>
              match rest4.dropWhile isWsChar with
              | ',' :: rest5 => parseJsFields fuel rest5 (acc ++ [(key, v)])
              | '}' :: rest5 => .ok (acc ++ [(key, v)], rest5)
              | _ => .error (str "json: expected comma or brace"))
         | _ => .error (str "json: expected colon"))
    | _ => .error (str "json: expected object key")

end

/-- Model of the platform's `JSON.parse`: parse one value and require only
trailing whitespace after it. -/
def jsonParse (s : Str) : Except Str Js :=
  match parseJsVal (2 * s.length + 4) s with
  | .error e => .error e
  | .ok (v, rest) =>
    if (rest.dropWhile isWsChar).isEmpty then .ok v
    else .error (str "json: trailing characters")

/-!
## Data model

Source: the `ImportEntry`, `ImportResult` and `ValidationError` interfaces of
`bulkImportService.ts`, and the shape of a row of the `knowledgeEntries` table
as the service reads and writes it (`userId`, `type`, `title`, `content`,
nullable `url`, nullable `metadata` stored as JSON text).

The TypeScript interfaces declare `type`, `title` and `content` as strings and
`url` and `metadata` as optional, which is how they are embedded here; an
absent string-typed field and the empty string are indistinguishable to every
consumer in the pipeline (all access is through JavaScript truthiness).
-/

/-- One entry to import (`ImportEntry` in the source).  `metadata` holds the
already-parsed JSON value (`Record<string, any>` in the source). -/
structure ImportEntry where
  type : Str
  title : Str
  content : Str
  url : Option Str
  metadata : Option Js

/-- One element of `ImportResult.errors`. -/
structure RowError where
  rowIndex : Nat
  error : Str
deriving DecidableEq, Repr

/-- The outcome of one import operation (`ImportResult` in the source). -/
structure ImportResult where
  success : Bool
  totalRows : Nat
  importedRows : Nat
  skippedRows : Nat
  errors : List RowError
deriving DecidableEq, Repr

/-- One validation failure (`ValidationError` in the source). -/
structure ValidationError where
  index : Nat
  error : Str
deriving DecidableEq, Repr

/-- One persisted row of the `knowledgeEntries` table, as the export
operations read it back: `url` and `metadata` are nullable columns and
`metadata` is stored as JSON text. -/
structure StoredEntry where
  userId : Nat
  type : Str
  title : Str
  content : Str
  url : Option Str
  metadata : Option Str
deriving DecidableEq, Repr

/-!
## CSV parsing (`BulkImportService.parseCSV`, `csvToEntries`)
-/

/-- A parsed CSV row: the sequence of `row[header] = value` assignments made
by the source's inner loop, in order (`Record<string, string>` in JS). -/
abbrev Row := List (Str × Str)

/-- Property read `row[key]` on a `Row`: the value of the latest assignment
to `key`, or `undefined` (`none`) when `key` was never assigned. -/
def rowGet : Row → Str → Option Str
  | [], _ => none
  | (k, v) :: rest, key =>
    match rowGet rest key with
    | some w => some w
    | none => if k = key then some v else none

/-- The non-blank lines of the raw input:
`content.split('\n').filter((line) => line.trim())`. -/
def csvLines (content : Str) : List Str :=
  (splitOnChar '\n' content).filter (fun l => !(trimStr l).isEmpty)

/-- Split one line into trimmed fields:
`line.split(',').map((v) => v.trim())`. -/
def splitFields (line : Str) : List Str :=
  (splitOnChar ',' line).map trimStr

/-- Build the row record for one data line:
`row[headers[j]] = values[j] || ''` for each header index `j`. -/
def buildRow : List Str → List Str → Row
  | [], _ => []
  | h :: hs, [] => (h, []) :: buildRow hs []
  | h :: hs, v :: vs => (h, v) :: buildRow hs vs

/-- `BulkImportService.parseCSV`: split into non-blank lines, require a header
line and at least one data line, take the first line as (trimmed) headers and
turn every later line into a row record.  The thrown error is modelled as
`Except.error`. -/
def parseCSV (content : Str) : Except Str (List Row) :=
  match csvLines content with
  | line0 :: line1 :: rest =>
    let headers := splitFields line0
    .ok ((line1 :: rest).map (fun line => buildRow headers (splitFields line)))
  | _ => .error (str "CSV must have at least a header row and one data row")

/-- JavaScript `xs.map f` where `f` may throw: evaluates left to right and
propagates the first exception. -/
def mapExcept (f : α → Except Str β) : List α → Except Str (List β)
  | [] => .ok []
  | a :: rest =>
    match f a with
    | .error e => .error e
    | .ok b =>
      match mapExcept f rest with
      | .error e => .error e
      | .ok bs => .ok (b :: bs)

/-- Map one CSV row to an `ImportEntry`:
`type: row.type || 'website'`, `title: row.title || ''`,
`content: row.content || ''`, `url: row.url`, and
`metadata: row.metadata ? JSON.parse(row.metadata) : undefined` — the
`JSON.parse` call may throw, which propagates out of the mapping step. -/
def rowToEntry (jp : Str → Except Str Js) (row : Row) : Except Str ImportEntry :=
  let base : Option Js → ImportEntry := fun md =>
    { type := strOr (rowGet row (str "type")) (str "website")
      title := strOr (rowGet row (str "title")) []
      content := strOr (rowGet row (str "content")) []
      url := rowGet row (str "url")
      metadata := md }
  match rowGet row (str "metadata") with
  | some m =>
    if m.isEmpty then .ok (base none)
    else
      match jp m with
      | .error e => .error e
      | .ok v => .ok (base (some v))
  | none => .ok (base none)

/-- `BulkImportService.csvToEntries`: map every row, first metadata parse
failure escaping as an exception. -/
def csvToEntries (jp : Str → Except Str Js) (rows : List Row) :
    Except Str (List ImportEntry) :=
  mapExcept (rowToEntry jp) rows

/-!
## JSON parsing (`BulkImportService.parseJSON`)
-/

/-- Property access `j[key]` on a parsed JSON value: `undefined` (`none`) on
non-object values and missing keys; the latest assignment wins on duplicate
keys, as in a JavaScript object literal. -/
def jsGet (j : Js) (key : Str) : Option Js :=
  match j with
  | .jobj fields =>
    match (fields.reverse.find? (fun f => decide (f.1 = key))) with
    | some f => some f.2
    | none => none
  | _ => none

/-- Property access `j[key]` where the pipeline expects a string: a missing
field and a non-string field value both behave as an absent string (a
non-string value would make the downstream string operations throw; no claim
exercises that, and the TypeScript interface declares these fields `string`). -/
def jsGetStr (j : Js) (key : Str) : Option Str :=
  match jsGet j key with
  | some (.jstr v) => some v
  | _ => none

/-- View one parsed JSON array element as an `ImportEntry` (the source casts
the element without conversion; field reads go through truthiness). -/
def jsToEntry (j : Js) : ImportEntry :=
  { type := (jsGetStr j (str "type")).getD []
    title := (jsGetStr j (str "title")).getD []
    content := (jsGetStr j (str "content")).getD []
    url := jsGetStr j (str "url")
    metadata := jsGet j (str "metadata") }

/-- `BulkImportService.parseJSON`: `JSON.parse` the text, require a top-level
array, and return its elements as entries; every failure is wrapped as
`Invalid JSON: <message>` by the method's own catch block. -/
def parseJSON (jp : Str → Except Str Js) (content : Str) :
    Except Str (List ImportEntry) :=
  match jp content with
  | .ok (.jarr xs) => .ok (xs.map jsToEntry)
  | .ok _ => .error (str "Invalid JSON: " ++ str "JSON must be an array of entries")
  | .error m => .error (str "Invalid JSON: " ++ m)

/-!
## Validation (`BulkImportService.validateEntries`)
-/

/-- The closed set of entry types (`validTypes` in the source). -/
def validTypes : List Str :=
  [str "website", str "book", str "music", str "artist", str "feature", str "blog"]

/-- The error messages pushed for one entry, in the source's check order:
type missing, else type not in the closed set; title missing or blank;
content missing or blank; title present and longer than 255 characters. -/
def entryErrors (entry : ImportEntry) : List Str :=
  (if entry.type.isEmpty then [str "Missing type field"]
   else if validTypes.contains entry.type then []
   else [str "Invalid type: " ++ entry.type ++ str ". Must be one of: "
         ++ strIntercalate (str ", ") validTypes])
  ++ (if (trimStr entry.title).isEmpty then [str "Missing or empty title"] else [])
  ++ (if (trimStr entry.content).isEmpty then [str "Missing or empty content"] else [])
  ++ (if !entry.title.isEmpty && decide (entry.title.length > 255)
      then [str "Title too long (max 255 characters)"] else [])

/-- The source's `for (let i = ...)` loop over the entries, pushing each
entry's errors tagged with its index. -/
def validateFrom (i : Nat) : List ImportEntry → List ValidationError
  | [] => []
  | e :: rest =>
    (entryErrors e).map (fun m => { index := i, error := m })
      ++ validateFrom (i + 1) rest

/-- `BulkImportService.validateEntries`. -/
def validateEntries (entries : List ImportEntry) : List ValidationError :=
  validateFrom 0 entries

/-!
## Import orchestration (`BulkImportService.importEntries`,
`importFromCSV`, `importFromJSON`)

The database is modelled by two parameters: `dbAvail` (whether the `db`
handle is initialized) and `ins`, the outcome of the `db.insert` call for a
given row index and entry (`.error` models a thrown insert error; the caught
message is folded into the result per row, as in the source).
-/

/-- One iteration of the source's import loop at index `i`: an invalid row is
counted skipped without an insert attempt; a valid row is inserted, counting
imported on success and appending a `Database insert failed` row error and
counting skipped on failure. -/
def importStep (ins : Nat → ImportEntry → Except Str Unit) (validIdx : Nat → Bool)
    (acc : ImportResult) (i : Nat) (e : ImportEntry) : ImportResult :=
  if !validIdx i then
    { acc with skippedRows := acc.skippedRows + 1 }
  else
    match ins i e with
    | .ok _ => { acc with importedRows := acc.importedRows + 1 }
    | .error m =>
      { acc with
          errors := acc.errors ++ [{ rowIndex := i, error := str "Database insert failed: " ++ m }]
          skippedRows := acc.skippedRows + 1 }

/-- The source's `for` loop over all entries, starting at index `i`. -/
def importLoop (ins : Nat → ImportEntry → Except Str Unit) (validIdx : Nat → Bool) :
    Nat → List ImportEntry → ImportResult → ImportResult
  | _, [], acc => acc
  | i, e :: rest, acc => importLoop ins validIdx (i + 1) rest (importStep ins validIdx acc i e)

/-- `BulkImportService.importEntries`: validate every entry up front, record
all validation errors in the result, compute the set of valid indices, short
circuit with the `Database not initialized` result when the `db` handle is
missing, and otherwise run the row loop and finish with
`success = (skippedRows === 0)`.  The `userId` parameter is forwarded only to
the insert calls, as in the source. -/
def importEntries (ins : Nat → ImportEntry → Except Str Unit) (dbAvail : Bool)
    (userId : Nat) (entries : List ImportEntry) : ImportResult :=
  let validationErrors := validateEntries entries
  let init : ImportResult :=
    { success := true
      totalRows := entries.length
      importedRows := 0
      skippedRows := 0
      errors := validationErrors.map (fun e => { rowIndex := e.index, error := e.error }) }
  let validIdx : Nat → Bool := fun i => !validationErrors.any (fun e => e.index == i)
  if !dbAvail then
    { success := false
      totalRows := entries.length
      importedRows := 0
      skippedRows := entries.length
      errors := [{ rowIndex := 0, error := str "Database not initialized" }] }
  else
    let r := importLoop ins validIdx 0 entries init
    { r with success := r.skippedRows == 0 }

/-- `BulkImportService.importFromCSV`: parse, map and import inside one
try/catch; a parse or mapping exception yields the degenerate result with the
single synthetic `CSV parsing failed` error at row index 0. -/
def importFromCSV (jp : Str → Except Str Js) (ins : Nat → ImportEntry → Except Str Unit)
    (dbAvail : Bool) (userId : Nat) (csvContent : Str) : ImportResult :=
  match (parseCSV csvContent).bind (csvToEntries jp) with
  | .ok entries => importEntries ins dbAvail userId entries
  | .error m =>
    { success := false
      totalRows := 0
      importedRows := 0
      skippedRows := 0
      errors := [{ rowIndex := 0, error := str "CSV parsing failed: " ++ m }] }

/-- `BulkImportService.importFromJSON`: parse and import inside one
try/catch; a parse exception yields the degenerate result with the single
synthetic `JSON parsing failed` error at row index 0. -/
def importFromJSON (jp : Str → Except Str Js) (ins : Nat → ImportEntry → Except Str Unit)
    (dbAvail : Bool) (userId : Nat) (jsonContent : Str) : ImportResult :=
  match parseJSON jp jsonContent with
  | .ok entries => importEntries ins dbAvail userId entries
  | .error m =>
    { success := false
      totalRows := 0
      importedRows := 0
      skippedRows := 0
      errors := [{ rowIndex := 0, error := str "JSON parsing failed: " ++ m }] }

/-!
## Export (`BulkImportService.exportAsCSV`, `exportAsJSON`)

The database is modelled as `Option (List StoredEntry)`: `none` when the `db`
handle is missing, otherwise the full contents of the `knowledgeEntries`
table.  Note that the source's `db.select().from(knowledgeEntries)` carries no
`where` clause, so both exports read the whole table; the `userId` parameter
is accepted and never used, exactly as in the source.
-/

/-- One CSV line of the export:
every field wrapped in double quotes, quotes in `title` and `content` doubled,
`url` and `metadata` defaulted to the empty string. -/
def csvEntryLine (e : StoredEntry) : Str :=
  str "\"" ++ e.type ++ str "\",\"" ++ replaceQuote (str "\"\"") e.title
    ++ str "\",\"" ++ replaceQuote (str "\"\"") e.content
    ++ str "\",\"" ++ (e.url.getD []) ++ str "\",\""
    ++ (match e.metadata with | some m => m | none => []) ++ str "\"\n"

/-- `BulkImportService.exportAsCSV`: empty string when the `db` handle is
missing or the table is empty; otherwise the fixed header line followed by
one line per stored row (`csv += ...` in a loop). -/
def exportAsCSV (dbTable : Option (List StoredEntry)) (userId : Nat) : Str :=
  match dbTable with
  | none => []
  | some entries =>
    if entries.length = 0 then []
    else entries.foldl (fun csv e => csv ++ csvEntryLine e)
      (str "type,title,content,url,metadata\n")

/-- The object built for one stored entry by `exportAsJSON`, modelled as its
list of serialized fields in construction order.  `JSON.stringify` keeps a
`null`-valued field but drops an `undefined`-valued one, so `url` is always
present (as JSON `null` when the column is null) while `metadata` is present
only when the stored text is truthy, re-parsed with `JSON.parse` (which may
throw on corrupt stored text). -/
def exportEntryData (jp : Str → Except Str Js) (e : StoredEntry) :
    Except Str (List (Str × Js)) :=
  let base : List (Str × Js) :=
    [(str "type", .jstr e.type), (str "title", .jstr e.title),
     (str "content", .jstr e.content),
     (str "url", match e.url with | some u => .jstr u | none => .jnull)]
  match e.metadata with
  | some m =>
    if m.isEmpty then .ok base
    else
      match jp m with
      | .error err => .error err
      | .ok v => .ok (base ++ [(str "metadata", v)])
  | none => .ok base

/-- `BulkImportService.exportAsJSON`, up to the final `JSON.stringify` of the
array: the empty array when the `db` handle is missing or the table is empty,
otherwise one serialized record per stored row. -/
def exportAsJSONData (jp : Str → Except Str Js) (dbTable : Option (List StoredEntry))
    (userId : Nat) : Except Str (List (List (Str × Js))) :=
  match dbTable with
  | none => .ok []
  | some entries =>
    if entries.length = 0 then .ok []
    else mapExcept (exportEntryData jp) entries


/-!
## Spec-side definitions and fixtures used by the claim theorems
-/

/-- The per-entry validation messages as the specification words them
(rules 1–5 of §4.4), for comparison with the source-derived `entryErrors`:
type missing; type present but outside the closed set; title missing or blank
after trimming; content missing or blank after trimming; title longer than
255 characters. -/
def specValidationMessages (e : ImportEntry) : List Str :=
  (if e.type.isEmpty then [str "Missing type field"] else [])
  ++ (if !e.type.isEmpty && !validTypes.contains e.type
      then [str "Invalid type: " ++ e.type ++ str ". Must be one of: "
            ++ strIntercalate (str ", ") validTypes] else [])
  ++ (if (trimStr e.title).isEmpty then [str "Missing or empty title"] else [])
  ++ (if (trimStr e.content).isEmpty then [str "Missing or empty content"] else [])
  ++ (if decide (e.title.length > 255) then [str "Title too long (max 255 characters)"] else [])

/-- Fixture: an entry violating exactly two validation rules (invalid type
and empty content). -/
def twoRuleEntry : ImportEntry :=
  { type := str "bogus", title := str "T", content := [], url := none, metadata := none }

/-- Fixture: an entry passing every validation rule. -/
def okEntry : ImportEntry :=
  { type := str "music", title := str "Track 1", content := str "My song",
    url := none, metadata := none }

/-- Wrap a string in double quotes, as the CSV export does to every field. -/
def quoteWrap (s : Str) : Str := '"' :: s ++ ['"']

/-- The body of one exported CSV line (the line without its trailing
newline), written in first-character/last-character form. -/
def csvBody (e : StoredEntry) : Str :=
  '"' :: (e.type ++ str "\",\"" ++ replaceQuote (str "\"\"") e.title
    ++ str "\",\"" ++ replaceQuote (str "\"\"") e.content
    ++ str "\",\"" ++ (e.url.getD []) ++ str "\",\""
    ++ (match e.metadata with | some m => m | none => [])) ++ ['"']

/-- A string free of the CSV-special characters: the field delimiter, the
quote, and the line separator. -/
def NoCsvSpecial (s : Str) : Prop := ',' ∉ s ∧ '"' ∉ s ∧ '\n' ∉ s

instance (s : Str) : Decidable (NoCsvSpecial s) := by
  unfold NoCsvSpecial; infer_instance

/-- A stored entry whose fields survive the quote-unaware CSV round trip:
no CSV-special character in any serialized field, and no stored metadata. -/
def CleanStored (e : StoredEntry) : Prop :=
  NoCsvSpecial e.type ∧ NoCsvSpecial e.title ∧ NoCsvSpecial e.content
    ∧ NoCsvSpecial (e.url.getD []) ∧ e.metadata = none

instance (e : StoredEntry) : Decidable (CleanStored e) := by
  unfold CleanStored; infer_instance

/-- What the CSV round trip actually produces for a clean stored entry:
every field comes back wrapped in the quotes the export added (the parser
interprets no quoting), the absent url becomes the two-character string
`""`, and the empty metadata field parses as the empty JSON string. -/
def wrapEntry (e : StoredEntry) : ImportEntry :=
  { type := quoteWrap e.type
    title := quoteWrap e.title
    content := quoteWrap e.content
    url := some (quoteWrap (e.url.getD []))
    metadata := some (.jstr []) }

/-- Fixture: a stored entry owned by user 1. -/
def storedMine : StoredEntry :=
  { userId := 1, type := str "website", title := str "Mine", content := str "c1",
    url := none, metadata := none }

/-- Fixture: a stored entry owned by user 2, private to that user. -/
def storedOther : StoredEntry :=
  { userId := 2, type := str "music", title := str "OtherSecret", content := str "c2",
    url := some (str "http://x"), metadata := none }

/-- Fixture: a clean stored entry for the round-trip witness. -/
def storedClean : StoredEntry :=
  { userId := 1, type := str "music", title := str "Track 1", content := str "My song",
    url := none, metadata := none }

/-- Fixture: a stored entry with neither url nor metadata. -/
def storedBare : StoredEntry :=
  { userId := 1, type := str "website", title := str "T", content := str "C",
    url := none, metadata := none }

/-!
## Shared lemmas about the import loop and the validator
-/

/-- The row loop never changes `totalRows`. -/
theorem importLoop_totalRows (ins : Nat → ImportEntry → Except Str Unit)
    (validIdx : Nat → Bool) :
    ∀ (es : List ImportEntry) (i : Nat) (acc : ImportResult),
      (importLoop ins validIdx i es acc).totalRows = acc.totalRows := by
  intro es
  induction es with
  | nil => intro i acc; rfl
  | cons e rest ih =>
    intro i acc
    rw [importLoop, ih]
    unfold importStep
    by_cases h : validIdx i
    · simp only [h]
      cases ins i e <;> simp
    · simp [h]

/-- Each loop iteration increments exactly one of `importedRows` and
`skippedRows`, so their sum grows by the number of rows processed. -/
theorem importLoop_counts (ins : Nat → ImportEntry → Except Str Unit)
    (validIdx : Nat → Bool) :
    ∀ (es : List ImportEntry) (i : Nat) (acc : ImportResult),
      (importLoop ins validIdx i es acc).importedRows
        + (importLoop ins validIdx i es acc).skippedRows
        = acc.importedRows + acc.skippedRows + es.length := by
  intro es
  induction es with
  | nil => intro i acc; simp [importLoop]
  | cons e rest ih =>
    intro i acc
    rw [importLoop, ih]
    unfold importStep
    by_cases h : validIdx i
    · simp only [h]
      cases ins i e <;> simp <;> omega
    · simp [h]; omega

/-- Every error produced by the validator loop starting at index `k` carries
an index at least `k`. -/
theorem validateFrom_le_index :
    ∀ (es : List ImportEntry) (k : Nat) (v : ValidationError),
      v ∈ validateFrom k es → k ≤ v.index := by
  intro es
  induction es with
  | nil => intro k v h; simp [validateFrom] at h
  | cons e rest ih =>
    intro k v h
    rw [validateFrom] at h
    rcases List.mem_append.mp h with h1 | h2
    · rcases List.mem_map.mp h1 with ⟨m, _, rfl⟩
      exact le_refl k
    · exact Nat.le_of_succ_le (ih (k + 1) v h2)

/-!
## Claims C3, C5, C7
-/

/-- C3: every `ImportResult` produced by `importEntries`, `importFromCSV` or
`importFromJSON` satisfies `totalRows = importedRows + skippedRows`, in the
normal row loop, the storage-unavailable short circuit, and the parse-failure
short circuit alike. -/
theorem c3_row_accounting :
    (∀ (ins : Nat → ImportEntry → Except Str Unit) (dbAvail : Bool) (u : Nat)
       (es : List ImportEntry),
       (importEntries ins dbAvail u es).totalRows
         = (importEntries ins dbAvail u es).importedRows
           + (importEntries ins dbAvail u es).skippedRows) ∧
    (∀ (jp : Str → Except Str Js) (ins : Nat → ImportEntry → Except Str Unit)
       (dbAvail : Bool) (u : Nat) (c : Str),
       (importFromCSV jp ins dbAvail u c).totalRows
         = (importFromCSV jp ins dbAvail u c).importedRows
           + (importFromCSV jp ins dbAvail u c).skippedRows) ∧
    (∀ (jp : Str → Except Str Js) (ins : Nat → ImportEntry → Except Str Unit)
       (dbAvail : Bool) (u : Nat) (c : Str),
       (importFromJSON jp ins dbAvail u c).totalRows
         = (importFromJSON jp ins dbAvail u c).importedRows
           + (importFromJSON jp ins dbAvail u c).skippedRows) := by
  have hmain : ∀ (ins : Nat → ImportEntry → Except Str Unit) (dbAvail : Bool) (u : Nat)
      (es : List ImportEntry),
      (importEntries ins dbAvail u es).totalRows
        = (importEntries ins dbAvail u es).importedRows
          + (importEntries ins dbAvail u es).skippedRows := by
    intro ins dbAvail u es
    unfold importEntries
    cases dbAvail with
    | false => simp
    | true =>
      simp only [Bool.not_true, Bool.false_eq_true, if_false]
      have ht := importLoop_totalRows ins
        (fun i => !(validateEntries es).any (fun e => e.index == i)) es 0
      have hc := importLoop_counts ins
        (fun i => !(validateEntries es).any (fun e => e.index == i)) es 0
      simp only [ImportResult.mk.injEq] at *
      simp [ht, hc]
  refine ⟨hmain, ?_, ?_⟩
  · intro jp ins dbAvail u c
    unfold importFromCSV
    cases h : (parseCSV c).bind (csvToEntries jp) with
    | ok entries => exact hmain ins dbAvail u entries
    | error m => simp
  · intro jp ins dbAvail u c
    unfold importFromJSON
    cases h : parseJSON jp c with
    | ok entries => exact hmain ins dbAvail u entries
    | error m => simp

/-- C5: with the storage handle missing, `importEntries` on a non-empty batch
of `N` entries returns exactly `success := false`, `totalRows := N`,
`importedRows := 0`, `skippedRows := N`, and the single error
`{rowIndex := 0, error := "Database not initialized"}`.  The result is the
same for every insert-outcome function `ins`, which expresses that no
persistence is attempted for any row. -/
theorem c5_storage_unavailable (ins : Nat → ImportEntry → Except Str Unit)
    (u : Nat) (es : List ImportEntry) (h : 0 < es.length) :
    importEntries ins false u es =
      { success := false
        totalRows := es.length
        importedRows := 0
        skippedRows := es.length
        errors := [{ rowIndex := 0, error := str "Database not initialized" }] } := by
  unfold importEntries
  simp

/-- Witness for C5 at a concrete one-row batch. -/
theorem c5_storage_unavailable_witness :
    0 < ([⟨str "music", str "T", str "C", none, none⟩] : List ImportEntry).length ∧
    importEntries (fun _ _ => .ok ()) false 7 [⟨str "music", str "T", str "C", none, none⟩] =
      { success := false
        totalRows := 1
        importedRows := 0
        skippedRows := 1
        errors := [{ rowIndex := 0, error := str "Database not initialized" }] } :=
  ⟨by decide, c5_storage_unavailable (fun _ _ => .ok ()) 7 _ (by decide)⟩

/-- C7: delimited input with fewer than two non-blank lines makes
`importFromCSV` return (not raise) the degenerate result with
`totalRows = 0`, `importedRows = 0` and exactly one error at row index 0. -/
theorem c7_csv_too_few_lines (jp : Str → Except Str Js)
    (ins : Nat → ImportEntry → Except Str Unit) (dbAvail : Bool) (u : Nat)
    (content : Str) (h : (csvLines content).length < 2) :
    importFromCSV jp ins dbAvail u content =
      { success := false
        totalRows := 0
        importedRows := 0
        skippedRows := 0
        errors := [{ rowIndex := 0, error := str "CSV parsing failed: CSV must have at least a header row and one data row" }] } := by
  have hp : parseCSV content
      = .error (str "CSV must have at least a header row and one data row") := by
    unfold parseCSV
    cases hl : csvLines content with
    | nil => rfl
    | cons a rest =>
      cases rest with
      | nil => rfl
      | cons b rest2 => rw [hl] at h; simp only [List.length_cons] at h; omega
  unfold importFromCSV
  rw [hp]
  rfl

/-- Witness for C7: a header-only input. -/
theorem c7_csv_too_few_lines_witness :
    (csvLines (str "type,title,content")).length < 2 ∧
    importFromCSV jsonParse (fun _ _ => .ok ()) true 7 (str "type,title,content") =
      { success := false
        totalRows := 0
        importedRows := 0
        skippedRows := 0
        errors := [{ rowIndex := 0, error := str "CSV parsing failed: CSV must have at least a header row and one data row" }] } :=
  ⟨by decide, c7_csv_too_few_lines jsonParse (fun _ _ => .ok ()) true 7 _ (by decide)⟩

/-!
## Claim C2
-/

/-- C2, counterexample: the degenerate result `importFromCSV` returns on a
parse failure (here: the empty input) has `success = false` together with
`skippedRows = 0`, refuting "success is true if and only if skippedRows
equals 0 — including the degenerate results". -/
theorem c2_counterexample :
    (importFromCSV jsonParse (fun _ _ => .ok ()) true 0 []).success = false ∧
    (importFromCSV jsonParse (fun _ _ => .ok ()) true 0 []).skippedRows = 0 ∧
    ¬((importFromCSV jsonParse (fun _ _ => .ok ()) true 0 []).success = true ↔
      (importFromCSV jsonParse (fun _ _ => .ok ()) true 0 []).skippedRows = 0) := by
  refine ⟨rfl, rfl, ?_⟩
  intro hiff
  exact absurd (hiff.mpr rfl) (by decide)

/-- C2, amended: `success = true` implies `skippedRows = 0` for every result
of every import operation; the converse holds for the results of the row loop
of `importEntries` when storage is available, while the degenerate results
(parse failure, storage unavailable) have `success = false` unconditionally —
on a parse failure with `skippedRows = 0`. -/
theorem c2_success_semantics :
    (∀ (ins : Nat → ImportEntry → Except Str Unit) (u : Nat) (es : List ImportEntry),
       (importEntries ins true u es).success = true ↔
         (importEntries ins true u es).skippedRows = 0) ∧
    (∀ (ins : Nat → ImportEntry → Except Str Unit) (u : Nat) (es : List ImportEntry),
       (importEntries ins false u es).success = false) ∧
    (∀ (jp : Str → Except Str Js) (ins : Nat → ImportEntry → Except Str Unit)
       (dbAvail : Bool) (u : Nat) (c : Str),
       (importFromCSV jp ins dbAvail u c).success = true →
         (importFromCSV jp ins dbAvail u c).skippedRows = 0) ∧
    (∀ (jp : Str → Except Str Js) (ins : Nat → ImportEntry → Except Str Unit)
       (dbAvail : Bool) (u : Nat) (c : Str),
       (importFromJSON jp ins dbAvail u c).success = true →
         (importFromJSON jp ins dbAvail u c).skippedRows = 0) := by
  have hav : ∀ (ins : Nat → ImportEntry → Except Str Unit) (u : Nat) (es : List ImportEntry),
      (importEntries ins true u es).success = true ↔
        (importEntries ins true u es).skippedRows = 0 := by
    intro ins u es
    unfold importEntries
    simp
  have himp : ∀ (ins : Nat → ImportEntry → Except Str Unit) (dbAvail : Bool) (u : Nat)
      (es : List ImportEntry),
      (importEntries ins dbAvail u es).success = true →
        (importEntries ins dbAvail u es).skippedRows = 0 := by
    intro ins dbAvail u es
    cases dbAvail with
    | true => exact (hav ins u es).mp
    | false => intro hs; exact absurd hs (by unfold importEntries; simp)
  refine ⟨hav, ?_, ?_, ?_⟩
  · intro ins u es; unfold importEntries; simp
  · intro jp ins dbAvail u c
    unfold importFromCSV
    cases h : (parseCSV c).bind (csvToEntries jp) with
    | ok entries => exact himp ins dbAvail u entries
    | error m => intro hs; exact absurd hs (by simp)
  · intro jp ins dbAvail u c
    unfold importFromJSON
    cases h : parseJSON jp c with
    | ok entries => exact himp ins dbAvail u entries
    | error m => intro hs; exact absurd hs (by simp)

/-- Witness for C2 (amended): a fully successful import has `success = true`
and, by the theorem, zero skipped rows. -/
theorem c2_success_semantics_witness :
    (importFromCSV jsonParse (fun _ _ => .ok ()) true 7
        (str "type,title,content\nmusic,Track 1,My song")).success = true ∧
    (importFromCSV jsonParse (fun _ _ => .ok ()) true 7
        (str "type,title,content\nmusic,Track 1,My song")).skippedRows = 0 :=
  ⟨by decide, c2_success_semantics.2.2.1 jsonParse (fun _ _ => .ok ()) true 7
      (str "type,title,content\nmusic,Track 1,My song") (by decide)⟩

/-!
## Claim C10
-/

/-- C10: with storage available, the structured import of the text `[]`
returns the all-zero successful result, while the delimited import rejects
every input with no data rows (fewer than two non-blank lines), so an empty
batch can only succeed through the structured path. -/
theorem c10_empty_batch :
    (∀ (jp : Str → Except Str Js) (ins : Nat → ImportEntry → Except Str Unit) (u : Nat),
       jp (str "[]") = .ok (.jarr []) →
         importFromJSON jp ins true u (str "[]") =
           { success := true, totalRows := 0, importedRows := 0, skippedRows := 0,
             errors := [] }) ∧
    (∀ (jp : Str → Except Str Js) (ins : Nat → ImportEntry → Except Str Unit)
       (u : Nat) (content : Str), (csvLines content).length < 2 →
         (importFromCSV jp ins true u content).success = false) := by
  constructor
  · intro jp ins u hjp
    unfold importFromJSON parseJSON
    rw [hjp]
    rfl
  · intro jp ins u content h
    rw [c7_csv_too_few_lines jp ins true u content h]

/-- Witness for C10 under the model JSON parser. -/
theorem c10_empty_batch_witness :
    (jsonParse (str "[]") = .ok (.jarr []) ∧
      importFromJSON jsonParse (fun _ _ => .ok ()) true 7 (str "[]") =
        { success := true, totalRows := 0, importedRows := 0, skippedRows := 0,
          errors := [] }) ∧
    ((csvLines (str "[]")).length < 2 ∧
      (importFromCSV jsonParse (fun _ _ => .ok ()) true 7 (str "[]")).success = false) :=
  ⟨⟨rfl, c10_empty_batch.1 jsonParse (fun _ _ => .ok ()) 7 rfl⟩,
   ⟨by decide, c10_empty_batch.2 jsonParse (fun _ _ => .ok ()) 7 (str "[]") (by decide)⟩⟩

/-- The error records carrying index `k + i` in the validator's output
starting at index `k` are exactly the messages of the `i`-th entry. -/
theorem validateFrom_filter :
    ∀ (es : List ImportEntry) (k i : Nat) (h : i < es.length),
      (validateFrom k es).filter (fun r => r.index == k + i) =
        (entryErrors (es.get ⟨i, h⟩)).map
          (fun m => { index := k + i, error := m }) := by
  intro es
  induction es with
  | nil => intro k i h; simp at h
  | cons e rest ih =>
    intro k i h
    rw [validateFrom, List.filter_append]
    cases i with
    | zero =>
      have h2 : (validateFrom (k + 1) rest).filter (fun r => r.index == k + 0) = [] := by
        rw [List.filter_eq_nil_iff]
        intro a ha
        have hle := validateFrom_le_index rest (k + 1) a ha
        simp only [beq_iff_eq]
        omega
      rw [h2, List.append_nil]
      rw [List.filter_map]
      have hcomp : ((fun r : ValidationError => r.index == k + 0)
          ∘ (fun m => ({ index := k, error := m } : ValidationError))) = fun _ => true := by
        funext m
        simp
      rw [hcomp, List.filter_true]
      simp [List.get]
    | succ i' =>
      have h1 : ((entryErrors e).map
          (fun m => ({ index := k, error := m } : ValidationError))).filter
            (fun r => r.index == k + (i' + 1)) = [] := by
        rw [List.filter_eq_nil_iff]
        intro a ha
        rcases List.mem_map.mp ha with ⟨m, _, rfl⟩
        simp only [beq_iff_eq]
        omega
      rw [h1, List.nil_append]
      have h' : i' < rest.length := by
        simp only [List.length_cons] at h
        omega
      have := ih (k + 1) i' h'
      have harith : k + 1 + i' = k + (i' + 1) := by omega
      rw [harith] at this
      rw [this]
      simp [List.get]

/-!
## Claim C6
-/

/-- C6: the validator emits one error record per violated rule (the
source-derived per-entry messages coincide with the specification's five
rules), the records carrying index `i` are exactly the messages of the `i`-th
entry of the input (so violations on one entry neither suppress nor disturb
the checking of any other entry), and the concrete entry violating exactly
two rules yields exactly two records, both tagged with its index. -/
theorem c6_validation_independence :
    (∀ e : ImportEntry, entryErrors e = specValidationMessages e) ∧
    (∀ (es : List ImportEntry) (i : Nat) (h : i < es.length),
       (validateEntries es).filter (fun r => r.index == i) =
         (entryErrors (es.get ⟨i, h⟩)).map (fun m => { index := i, error := m })) ∧
    (validateEntries [okEntry, twoRuleEntry] =
      [{ index := 1, error := str "Invalid type: bogus. Must be one of: website, book, music, artist, feature, blog" },
       { index := 1, error := str "Missing or empty content" }]) := by
  refine ⟨?_, ?_, by decide⟩
  · intro e
    unfold entryErrors specValidationMessages
    by_cases h3 : e.title.isEmpty
    · have he : e.title = [] := List.isEmpty_iff.mp h3
      by_cases h1 : e.type.isEmpty <;>
        by_cases h2 : validTypes.contains e.type <;> simp [h1, h2, he]
    · by_cases h1 : e.type.isEmpty <;>
        by_cases h2 : validTypes.contains e.type <;> simp [h1, h2, h3]
  · intro es i h
    have := validateFrom_filter es 0 i h
    simpa [validateEntries] using this

/-- Witness for C6 at a concrete two-entry batch: the records at index 1 are
exactly the two messages of the entry violating two rules. -/
theorem c6_validation_independence_witness :
    1 < ([okEntry, twoRuleEntry] : List ImportEntry).length ∧
    (validateEntries [okEntry, twoRuleEntry]).filter (fun r => r.index == 1) =
      (entryErrors twoRuleEntry).map (fun m => { index := 1, error := m }) :=
  ⟨by decide, c6_validation_independence.2.1 [okEntry, twoRuleEntry] 1 (by decide)⟩

/-!
## Claim C8
-/

/-- C8, counterexample: for a stored entry with neither url nor metadata, the
JSON export record still contains a `url` field (serialized as JSON `null`),
and contains no `metadata` field at all — refuting both halves of the claim
(`url` included only when present; `metadata` defaulting to an empty object
when absent). -/
theorem c8_counterexample :
    storedBare.url = none ∧ storedBare.metadata = none ∧
    exportEntryData jsonParse storedBare =
      .ok [(str "type", .jstr (str "website")), (str "title", .jstr (str "T")),
           (str "content", .jstr (str "C")), (str "url", Js.jnull)] ∧
    (exportEntryData jsonParse storedBare).map (List.map Prod.fst) =
      .ok [str "type", str "title", str "content", str "url"] :=
  ⟨rfl, rfl, rfl, rfl⟩

/-- C8, amended: in the JSON export record the `url` field is always present —
the stored url when the column holds one, JSON `null` otherwise — while the
`metadata` field is present exactly when the stored metadata text is truthy
(non-null and non-empty), holding its re-parsed value; an absent or empty
stored metadata yields no `metadata` field (not an empty object). -/
theorem c8_export_shape :
    (∀ (jp : Str → Except Str Js) (e : StoredEntry), e.metadata = none →
       exportEntryData jp e = .ok
         [(str "type", .jstr e.type), (str "title", .jstr e.title),
          (str "content", .jstr e.content),
          (str "url", match e.url with | some u => Js.jstr u | none => Js.jnull)]) ∧
    (∀ (jp : Str → Except Str Js) (e : StoredEntry), e.metadata = some [] →
       exportEntryData jp e = .ok
         [(str "type", .jstr e.type), (str "title", .jstr e.title),
          (str "content", .jstr e.content),
          (str "url", match e.url with | some u => Js.jstr u | none => Js.jnull)]) ∧
    (∀ (jp : Str → Except Str Js) (e : StoredEntry) (m : Str) (v : Js),
       e.metadata = some m → m.isEmpty = false → jp m = .ok v →
       exportEntryData jp e = .ok
         ([(str "type", .jstr e.type), (str "title", .jstr e.title),
           (str "content", .jstr e.content),
           (str "url", match e.url with | some u => Js.jstr u | none => Js.jnull)]
          ++ [(str "metadata", v)])) := by
  refine ⟨?_, ?_, ?_⟩
  · intro jp e h
    unfold exportEntryData
    rw [h]
  · intro jp e h
    unfold exportEntryData
    rw [h]
    rfl
  · intro jp e m v hm hne hjp
    unfold exportEntryData
    rw [hm]
    simp [hne, hjp]

/-- Witness for C8 (amended), at a bare entry and at an entry carrying url
and metadata, under the model JSON parser. -/
theorem c8_export_shape_witness :
    (storedBare.metadata = none ∧
      exportEntryData jsonParse storedBare =
        .ok [(str "type", .jstr (str "website")), (str "title", .jstr (str "T")),
             (str "content", .jstr (str "C")), (str "url", Js.jnull)]) ∧
    ((⟨1, str "website", str "T", str "C", some (str "u"), some (str "{}")⟩ :
        StoredEntry).metadata = some (str "{}") ∧
      (str "{}").isEmpty = false ∧
      jsonParse (str "{}") = .ok (.jobj []) ∧
      exportEntryData jsonParse
          ⟨1, str "website", str "T", str "C", some (str "u"), some (str "{}")⟩ =
        .ok ([(str "type", .jstr (str "website")), (str "title", .jstr (str "T")),
              (str "content", .jstr (str "C")), (str "url", Js.jstr (str "u"))]
             ++ [(str "metadata", .jobj [])])) :=
  ⟨⟨rfl, c8_export_shape.1 jsonParse storedBare rfl⟩,
   ⟨rfl, rfl, rfl,
    c8_export_shape.2.2 jsonParse
      ⟨1, str "website", str "T", str "C", some (str "u"), some (str "{}")⟩
      (str "{}") (.jobj []) rfl rfl rfl⟩⟩

/-!
## Claim C1
-/

/-- C1: the claim fails on the code — both export operations ignore the
caller identity entirely (the select has no owner filter), so the export for
one owner serializes every stored entry, including other owners' entries.
First two conjuncts: the exports are independent of the `userId` argument.
Last conjunct: the CSV exported for user 1 over a table holding one entry of
user 1 and one of user 2 contains user 2's entry in full. -/
theorem c1_export_ignores_owner :
    (∀ (dbTable : Option (List StoredEntry)) (u v : Nat),
       exportAsCSV dbTable u = exportAsCSV dbTable v) ∧
    (∀ (jp : Str → Except Str Js) (dbTable : Option (List StoredEntry)) (u v : Nat),
       exportAsJSONData jp dbTable u = exportAsJSONData jp dbTable v) ∧
    (storedMine.userId = 1 ∧ storedOther.userId = 2 ∧
      exportAsCSV (some [storedMine, storedOther]) 1 =
        str "type,title,content,url,metadata\n\"website\",\"Mine\",\"c1\",\"\",\"\"\n\"music\",\"OtherSecret\",\"c2\",\"http://x\",\"\"\n" ∧
      exportAsCSV (some [storedMine, storedOther]) 1 ≠
        exportAsCSV (some ([storedMine, storedOther].filter (fun e => e.userId == 1))) 1) :=
  ⟨fun _ _ _ => rfl, fun _ _ _ _ => rfl, rfl, rfl, by decide, by decide⟩

/-!
## Claim C9
-/

/-- A row whose metadata field is non-empty and fails to parse makes the
row-to-entry mapping throw. -/
theorem rowToEntry_error (jp : Str → Except Str Js) (row : Row) (m e : Str)
    (hm : rowGet row (str "metadata") = some m) (hne : m.isEmpty = false)
    (hjp : jp m = .error e) : rowToEntry jp row = .error e := by
  unfold rowToEntry
  rw [hm]
  simp [hne, hjp]

/-- A throwing element makes the whole (JS) `map` throw. -/
theorem mapExcept_error_of_mem {α β : Type} (f : α → Except Str β) :
    ∀ (l : List α) (a : α), a ∈ l → (∃ e, f a = .error e) →
      ∃ msg, mapExcept f l = .error msg := by
  intro l
  induction l with
  | nil => intro a ha; simp at ha
  | cons b rest ih =>
    intro a ha ⟨e, hfa⟩
    unfold mapExcept
    cases hfb : f b with
    | error e2 => exact ⟨e2, rfl⟩
    | ok bv =>
      rcases List.mem_cons.mp ha with rfl | hrest
      · rw [hfb] at hfa; exact absurd hfa (by simp)
      · obtain ⟨msg, hmsg⟩ := ih a hrest ⟨e, hfa⟩
        rw [hmsg]
        exact ⟨msg, rfl⟩

/-- C9: a row mapping whose metadata field is non-empty but unparsable makes
the row-to-entry mapping step throw; the exception escapes `csvToEntries`
and is caught only at the whole-import boundary, which returns the batch
degenerate result (`totalRows = 0`, single synthetic error at row index 0) —
the failure is never recorded as a per-row error record for the offending
row. -/
theorem c9_metadata_escape (jp : Str → Except Str Js)
    (ins : Nat → ImportEntry → Except Str Unit) (dbAvail : Bool) (u : Nat)
    (content : Str) (rows : List Row) (r : Row) (m e : Str)
    (hp : parseCSV content = .ok rows) (hmem : r ∈ rows)
    (hm : rowGet r (str "metadata") = some m) (hne : m.isEmpty = false)
    (hjp : jp m = .error e) :
    ∃ msg, csvToEntries jp rows = .error msg ∧
      importFromCSV jp ins dbAvail u content =
        { success := false, totalRows := 0, importedRows := 0, skippedRows := 0,
          errors := [{ rowIndex := 0, error := str "CSV parsing failed: " ++ msg }] } := by
  obtain ⟨msg, hcsv⟩ := mapExcept_error_of_mem (rowToEntry jp) rows r hmem
    ⟨e, rowToEntry_error jp r m e hm hne hjp⟩
  have hcsv2 : csvToEntries jp rows = .error msg := hcsv
  refine ⟨msg, hcsv2, ?_⟩
  unfold importFromCSV
  rw [hp, Except.bind, hcsv2]

/-- Witness for C9: a two-column input whose single data row carries the
unparsable metadata text `oops`. -/
theorem c9_metadata_escape_witness :
    parseCSV (str "type,metadata\nx,oops") =
      .ok [[(str "type", str "x"), (str "metadata", str "oops")]] ∧
    rowGet [(str "type", str "x"), (str "metadata", str "oops")] (str "metadata") =
      some (str "oops") ∧
    (str "oops").isEmpty = false ∧
    jsonParse (str "oops") = .error (str "json: unexpected character") ∧
    ∃ msg, csvToEntries jsonParse [[(str "type", str "x"), (str "metadata", str "oops")]] =
        .error msg ∧
      importFromCSV jsonParse (fun _ _ => .ok ()) true 7 (str "type,metadata\nx,oops") =
        { success := false, totalRows := 0, importedRows := 0, skippedRows := 0,
          errors := [{ rowIndex := 0, error := str "CSV parsing failed: " ++ msg }] } :=
  ⟨rfl, by decide, rfl, rfl,
   c9_metadata_escape jsonParse (fun _ _ => .ok ()) true 7
     (str "type,metadata\nx,oops") [[(str "type", str "x"), (str "metadata", str "oops")]]
     [(str "type", str "x"), (str "metadata", str "oops")] (str "oops")
     (str "json: unexpected character") rfl (by decide) (by decide) rfl rfl⟩

/-!
## Claim C4: counterexample
-/

/-- C4, counterexample: a stored entry whose title and content contain no
comma and no quote (`Track 1` / `My song`) does not survive the
export-then-import round trip field-for-field: the export wraps every field
in double quotes and the parser interprets no quoting, so every field comes
back with literal quote characters (title `"Track 1"` instead of `Track 1`,
and similarly for type, content and url). -/
theorem c4_counterexample :
    ',' ∉ storedClean.title ∧ '"' ∉ storedClean.title ∧
    ',' ∉ storedClean.content ∧ '"' ∉ storedClean.content ∧
    ((parseCSV (exportAsCSV (some [storedClean]) 0)).bind (csvToEntries jsonParse)).map
        (List.map (fun e => (e.type, e.title, e.content, e.url))) =
      .ok [(str "\"music\"", str "\"Track 1\"", str "\"My song\"", some (str "\"\""))] ∧
    (str "\"Track 1\"", (some (str "\"\"") : Option Str)) ≠ (storedClean.title, storedClean.url) :=
  ⟨by decide, by decide, by decide, by decide, rfl, by decide⟩

/-!
## Claim C4: string lemmas for the amended round trip
-/

/-- Appending through a fold is concatenation of the mapped pieces. -/
theorem foldl_append_flatten {α : Type} (f : α → Str) :
    ∀ (l : List α) (init : Str),
      l.foldl (fun acc e => acc ++ f e) init = init ++ (l.map f).flatten := by
  intro l
  induction l with
  | nil => intro init; simp
  | cons e rest ih =>
    intro init
    rw [List.foldl_cons, ih]
    simp [List.append_assoc]

/-- The CSV export of a non-empty table is the header line followed by the
concatenated entry lines. -/
theorem exportAsCSV_eq (es : List StoredEntry) (u : Nat) (h : es ≠ []) :
    exportAsCSV (some es) u =
      str "type,title,content,url,metadata\n" ++ (es.map csvEntryLine).flatten := by
  simp only [exportAsCSV]
  rw [if_neg (by simpa [List.length_eq_zero] using h)]
  exact foldl_append_flatten csvEntryLine es _

/-- Each exported line is its body plus the trailing newline. -/
theorem csvEntryLine_eq (e : StoredEntry) : csvEntryLine e = csvBody e ++ ['\n'] := by
  unfold csvEntryLine csvBody
  rw [show str "\"\n" = ['"', '\n'] from rfl, show str "\"" = ['"'] from rfl]
  simp [List.append_assoc]

/-- Splitting a string free of the separator is trivial. -/
theorem splitOnChar_of_not_mem (sep : Char) :
    ∀ s : Str, sep ∉ s → splitOnChar sep s = [s] := by
  intro s
  induction s with
  | nil => intro h; rfl
  | cons c cs ih =>
    intro h
    have hc : ¬ c = sep := fun heq => h (heq ▸ List.mem_cons_self c cs)
    have hcs : sep ∉ cs := fun hm => h (List.mem_cons_of_mem c hm)
    simp only [splitOnChar, ih hcs]
    simp [hc]

/-- Splitting at the first separator occurrence. -/
theorem splitOnChar_append (sep : Char) :
    ∀ (a b : Str), sep ∉ a →
      splitOnChar sep (a ++ sep :: b) = a :: splitOnChar sep b := by
  intro a
  induction a with
  | nil => intro b h; simp [splitOnChar]
  | cons c cs ih =>
    intro b h
    have hc : ¬ c = sep := fun heq => h (heq ▸ List.mem_cons_self c cs)
    have hcs : sep ∉ cs := fun hm => h (List.mem_cons_of_mem c hm)
    simp only [List.cons_append, splitOnChar, List.append_eq]
    rw [ih b hcs]
    simp [hc]

/-- Trimming fixes a string whose first and last characters are not
whitespace. -/
theorem trimStr_wrap (a b : Char) (m : Str) (ha : isWsChar a = false)
    (hb : isWsChar b = false) : trimStr (a :: m ++ [b]) = a :: m ++ [b] := by
  have h1 : (a :: m ++ [b]).dropWhile isWsChar = a :: m ++ [b] := by
    simp [List.dropWhile_cons, ha]
  have h2 : (a :: m ++ [b]).reverse = b :: (m.reverse ++ [a]) := by
    simp
  have h3 : (b :: (m.reverse ++ [a])).dropWhile isWsChar = b :: (m.reverse ++ [a]) := by
    simp [List.dropWhile_cons, hb]
  unfold trimStr
  rw [h1, h2, h3]
  simp

/-- Membership in a quote-wrapped string. -/
theorem mem_quoteWrap {c : Char} {s : Str} : c ∈ quoteWrap s ↔ c = '"' ∨ c ∈ s := by
  unfold quoteWrap
  simp [List.mem_cons, List.mem_append]
  tauto

/-- Quote replacement is the identity on quote-free strings. -/
theorem replaceQuote_id (repl : Str) :
    ∀ s : Str, '"' ∉ s → replaceQuote repl s = s := by
  intro s
  induction s with
  | nil => intro h; rfl
  | cons c cs ih =>
    intro h
    have hc : ¬ c = '"' := fun heq => h (heq ▸ List.mem_cons_self c cs)
    have hcs : '"' ∉ cs := fun hm => h (List.mem_cons_of_mem c hm)
    simp only [replaceQuote, List.flatMap_cons]
    rw [if_neg hc]
    simp only [List.singleton_append]
    have := ih hcs
    unfold replaceQuote at this
    rw [this]

/-- Shape of the exported line body for an entry with quote-free title and
content and no stored metadata: five quote-wrapped fields joined by commas. -/
theorem csvBody_clean (e : StoredEntry) (hqt : '"' ∉ e.title) (hqc : '"' ∉ e.content)
    (hm : e.metadata = none) :
    csvBody e = quoteWrap e.type ++ ',' :: (quoteWrap e.title
      ++ ',' :: (quoteWrap e.content ++ ',' :: (quoteWrap (e.url.getD [])
      ++ ',' :: quoteWrap []))) := by
  unfold csvBody quoteWrap
  rw [replaceQuote_id _ e.title hqt, replaceQuote_id _ e.content hqc, hm]
  rw [show str "\",\"" = ['"', ',', '"'] from rfl]
  simp [List.append_assoc]

/-- Characters of a clean exported line body. -/
theorem mem_csvBody_clean {c : Char} (e : StoredEntry) (hqt : '"' ∉ e.title)
    (hqc : '"' ∉ e.content) (hm : e.metadata = none) :
    c ∈ csvBody e ↔
      (c = '"' ∨ c = ',' ∨ c ∈ e.type ∨ c ∈ e.title ∨ c ∈ e.content
        ∨ c ∈ e.url.getD []) := by
  rw [csvBody_clean e hqt hqc hm]
  simp [mem_quoteWrap, List.mem_append, List.mem_cons]
  tauto

/-- A clean entry's exported line body contains no newline. -/
theorem nl_not_mem_csvBody (e : StoredEntry) (h : CleanStored e) :
    '\n' ∉ csvBody e := by
  obtain ⟨⟨ht1, ht2, ht3⟩, ⟨hti1, hti2, hti3⟩, ⟨hc1, hc2, hc3⟩, ⟨hu1, hu2, hu3⟩, hm⟩ := h
  rw [mem_csvBody_clean e hti2 hc2 hm]
  push_neg
  exact ⟨by decide, by decide, ht3, hti3, hc3, hu3⟩

/-- Newline-splitting the concatenated export lines of clean entries yields
one group per entry plus a final empty group. -/
theorem splitNl_flatten :
    ∀ es : List StoredEntry, (∀ e ∈ es, CleanStored e) →
      splitOnChar '\n' ((es.map csvEntryLine).flatten) = es.map csvBody ++ [[]] := by
  intro es
  induction es with
  | nil => intro h; rfl
  | cons e rest ih =>
    intro h
    have he := h e (List.mem_cons_self e rest)
    have hrest : ∀ x ∈ rest, CleanStored x := fun x hx => h x (List.mem_cons_of_mem e hx)
    simp only [List.map_cons, List.flatten_cons]
    rw [csvEntryLine_eq, List.append_assoc, List.singleton_append]
    rw [splitOnChar_append '\n' (csvBody e) _ (nl_not_mem_csvBody e he)]
    rw [ih hrest]
    simp

/-- The non-blank lines of the export of a non-empty table of clean entries:
the header line followed by one line body per entry. -/
theorem csvLines_export (es : List StoredEntry) (u : Nat) (hne : es ≠ [])
    (hclean : ∀ e ∈ es, CleanStored e) :
    csvLines (exportAsCSV (some es) u) =
      str "type,title,content,url,metadata" :: es.map csvBody := by
  rw [exportAsCSV_eq es u hne]
  unfold csvLines
  rw [show str "type,title,content,url,metadata\n" ++ (es.map csvEntryLine).flatten
      = str "type,title,content,url,metadata" ++ '\n' :: (es.map csvEntryLine).flatten from by
    rw [show str "type,title,content,url,metadata\n"
        = str "type,title,content,url,metadata" ++ ['\n'] from rfl]
    simp [List.append_assoc]]
  rw [splitOnChar_append '\n' _ _ (by decide)]
  rw [splitNl_flatten es hclean]
  rw [List.filter_cons_of_pos (by decide)]
  rw [List.filter_append]
  have h1 : (es.map csvBody).filter (fun l => !(trimStr l).isEmpty) = es.map csvBody := by
    rw [List.filter_eq_self]
    intro a ha
    obtain ⟨e, he, rfl⟩ := List.mem_map.mp ha
    have htr : trimStr (csvBody e) = csvBody e := trimStr_wrap '"' '"' _ rfl rfl
    rw [htr]
    simp [csvBody]
  rw [h1]
  simp [show trimStr ([] : Str) = [] from rfl]

/-- Trimming fixes a quote-wrapped field. -/
theorem trimStr_quoteWrap (s : Str) : trimStr (quoteWrap s) = quoteWrap s :=
  trimStr_wrap '"' '"' s rfl rfl

/-- Comma-splitting and trimming a clean entry's line body recovers the five
quote-wrapped fields. -/
theorem splitFields_csvBody (e : StoredEntry) (h : CleanStored e) :
    splitFields (csvBody e) =
      [quoteWrap e.type, quoteWrap e.title, quoteWrap e.content,
       quoteWrap (e.url.getD []), quoteWrap []] := by
  obtain ⟨⟨ht1, ht2, ht3⟩, ⟨hti1, hti2, hti3⟩, ⟨hc1, hc2, hc3⟩, ⟨hu1, hu2, hu3⟩, hm⟩ := h
  have hq : ∀ (s : Str), ',' ∉ s → ',' ∉ quoteWrap s := by
    intro s hs hmem
    rcases mem_quoteWrap.mp hmem with h1 | h1
    · exact absurd h1 (by decide)
    · exact hs h1
  unfold splitFields
  rw [csvBody_clean e hti2 hc2 hm]
  rw [splitOnChar_append ',' _ _ (hq _ ht1)]
  rw [splitOnChar_append ',' _ _ (hq _ hti1)]
  rw [splitOnChar_append ',' _ _ (hq _ hc1)]
  rw [splitOnChar_append ',' _ _ (hq _ hu1)]
  rw [splitOnChar_of_not_mem ',' _ (hq [] (by decide))]
  simp only [List.map_cons, List.map_nil, trimStr_quoteWrap]

/-- A later assignment to a different key does not affect a lookup. -/
theorem rowGet_cons_ne (k v key : Str) (rest : Row) (h : ¬ k = key) :
    rowGet ((k, v) :: rest) key = rowGet rest key := by
  cases hr : rowGet rest key <;> simp [rowGet, hr, h]

/-- The first assignment answers the lookup when no later one does. -/
theorem rowGet_cons_hit (k v key : Str) (rest : Row) (hk : k = key)
    (hr : rowGet rest key = none) : rowGet ((k, v) :: rest) key = some v := by
  simp [rowGet, hr, hk]

/-- `row.x || ''` is the identity on a present field. -/
theorem strOr_some_nil (b : Str) : strOr (some b) [] = b := by
  cases b with
  | nil => rfl
  | cons c cs => rfl

/-- Mapping the row built from the exported header and the five
quote-wrapped field values of a clean entry: the quotes make every field
truthy, and the metadata field `""` parses as the empty JSON string. -/
theorem rowToEntry_row5 (a b c d : Str) (ha : a.isEmpty = false) :
    rowToEntry jsonParse
      [(str "type", a), (str "title", b), (str "content", c),
       (str "url", d), (str "metadata", quoteWrap [])] =
      .ok { type := a, title := b, content := c, url := some d,
            metadata := some (.jstr []) } := by
  have r1 : rowGet [(str "title", b), (str "content", c), (str "url", d),
      (str "metadata", quoteWrap [])] (str "type") = none := by
    rw [rowGet_cons_ne _ _ _ _ (by decide), rowGet_cons_ne _ _ _ _ (by decide),
      rowGet_cons_ne _ _ _ _ (by decide), rowGet_cons_ne _ _ _ _ (by decide)]
    rfl
  have h1 : rowGet [(str "type", a), (str "title", b), (str "content", c),
      (str "url", d), (str "metadata", quoteWrap [])] (str "type") = some a :=
    rowGet_cons_hit _ _ _ _ rfl r1
  have r2 : rowGet [(str "content", c), (str "url", d),
      (str "metadata", quoteWrap [])] (str "title") = none := by
    rw [rowGet_cons_ne _ _ _ _ (by decide), rowGet_cons_ne _ _ _ _ (by decide),
      rowGet_cons_ne _ _ _ _ (by decide)]
    rfl
  have h2 : rowGet [(str "type", a), (str "title", b), (str "content", c),
      (str "url", d), (str "metadata", quoteWrap [])] (str "title") = some b := by
    rw [rowGet_cons_ne _ _ _ _ (by decide)]
    exact rowGet_cons_hit _ _ _ _ rfl r2
  have r3 : rowGet [(str "url", d), (str "metadata", quoteWrap [])]
      (str "content") = none := by
    rw [rowGet_cons_ne _ _ _ _ (by decide), rowGet_cons_ne _ _ _ _ (by decide)]
    rfl
  have h3 : rowGet [(str "type", a), (str "title", b), (str "content", c),
      (str "url", d), (str "metadata", quoteWrap [])] (str "content") = some c := by
    rw [rowGet_cons_ne _ _ _ _ (by decide), rowGet_cons_ne _ _ _ _ (by decide)]
    exact rowGet_cons_hit _ _ _ _ rfl r3
  have r4 : rowGet [(str "metadata", quoteWrap [])] (str "url") = none := by
    rw [rowGet_cons_ne _ _ _ _ (by decide)]
    rfl
  have h4 : rowGet [(str "type", a), (str "title", b), (str "content", c),
      (str "url", d), (str "metadata", quoteWrap [])] (str "url") = some d := by
    rw [rowGet_cons_ne _ _ _ _ (by decide), rowGet_cons_ne _ _ _ _ (by decide),
      rowGet_cons_ne _ _ _ _ (by decide)]
    exact rowGet_cons_hit _ _ _ _ rfl r4
  have h5 : rowGet [(str "type", a), (str "title", b), (str "content", c),
      (str "url", d), (str "metadata", quoteWrap [])] (str "metadata") =
      some (quoteWrap []) := by
    rw [rowGet_cons_ne _ _ _ _ (by decide), rowGet_cons_ne _ _ _ _ (by decide),
      rowGet_cons_ne _ _ _ _ (by decide), rowGet_cons_ne _ _ _ _ (by decide)]
    exact rowGet_cons_hit _ _ _ _ rfl rfl
  have hj : jsonParse (quoteWrap []) = .ok (.jstr []) := rfl
  unfold rowToEntry
  rw [h5]
  simp only [show (quoteWrap []).isEmpty = false from rfl, Bool.false_eq_true,
    if_false, hj]
  rw [h1, h2, h3, h4]
  simp [strOr, ha, strOr_some_nil]

/-- A throw-free (JS) `map` collects all results. -/
theorem mapExcept_map {α γ β : Type} (h : α → γ) (f : γ → Except Str β) (g : α → β) :
    ∀ l : List α, (∀ a ∈ l, f (h a) = .ok (g a)) →
      mapExcept f (l.map h) = .ok (l.map g) := by
  intro l
  induction l with
  | nil => intro hl; rfl
  | cons a rest ih =>
    intro hl
    simp only [List.map_cons]
    unfold mapExcept
    rw [hl a (List.mem_cons_self a rest)]
    rw [ih (fun x hx => hl x (List.mem_cons_of_mem a hx))]

/-- One clean entry survives export, comma-splitting, row building and
mapping as its quote-wrapped image. -/
theorem roundtrip_row (e : StoredEntry) (h : CleanStored e) :
    rowToEntry jsonParse
      (buildRow (splitFields (str "type,title,content,url,metadata"))
        (splitFields (csvBody e))) = .ok (wrapEntry e) := by
  rw [splitFields_csvBody e h]
  rw [show splitFields (str "type,title,content,url,metadata")
      = [str "type", str "title", str "content", str "url", str "metadata"] from rfl]
  exact rowToEntry_row5 (quoteWrap e.type) (quoteWrap e.title) (quoteWrap e.content)
    (quoteWrap (e.url.getD [])) rfl

/-- C4, amended: for a non-empty batch of stored entries whose type, title,
content and url contain no comma, no quote and no newline and whose metadata
is absent, exporting with `exportAsCSV` and re-importing with `parseCSV`
followed by `csvToEntries` succeeds and yields, entry for entry, the
quote-wrapped image of the original: each of type, title, content comes back
surrounded by one double quote on each side, the url field becomes the
quote-wrapped stored url (the empty string when absent), and the empty
metadata field parses as the empty JSON string — not the original fields
themselves, since the export quotes every field and the parser interprets no
quoting. -/
theorem c4_roundtrip_quoted (u : Nat) (es : List StoredEntry) (hne : es ≠ [])
    (hclean : ∀ e ∈ es, CleanStored e) :
    (parseCSV (exportAsCSV (some es) u)).bind (csvToEntries jsonParse) =
      .ok (es.map wrapEntry) := by
  obtain ⟨e0, es', rfl⟩ : ∃ e0 es', es = e0 :: es' := by
    cases es with
    | nil => exact absurd rfl hne
    | cons a l => exact ⟨a, l, rfl⟩
  have hparse : parseCSV (exportAsCSV (some (e0 :: es')) u) =
      .ok ((csvBody e0 :: es'.map csvBody).map
        (fun line => buildRow (splitFields (str "type,title,content,url,metadata"))
          (splitFields line))) := by
    unfold parseCSV
    rw [csvLines_export (e0 :: es') u hne hclean]
    rfl
  rw [hparse]
  show csvToEntries jsonParse _ = _
  unfold csvToEntries
  rw [show (csvBody e0 :: es'.map csvBody) = (e0 :: es').map csvBody from by simp]
  rw [List.map_map]
  exact mapExcept_map _ _ wrapEntry (e0 :: es')
    (fun a ha => roundtrip_row a (hclean a ha))

/-- Witness for C4 (amended) at a concrete clean entry. -/
theorem c4_roundtrip_quoted_witness :
    (([storedClean] : List StoredEntry) ≠ [] ∧
      ∀ e ∈ ([storedClean] : List StoredEntry), CleanStored e) ∧
    (parseCSV (exportAsCSV (some [storedClean]) 0)).bind (csvToEntries jsonParse) =
      .ok ([storedClean].map wrapEntry) :=
  ⟨⟨by decide, by decide⟩, c4_roundtrip_quoted 0 [storedClean] (by decide) (by decide)⟩
